import Mathlib

/-!
Verification of the `material-schemes` color-scheme type layer.

The repository consists of TypeScript type declarations; we embed them
shallowly. A runtime object is an association list from property names to
`Color` values, and each object type of the source becomes an executable
conformance predicate (`Bool`-valued) on objects, following TypeScript's
structural-typing rules: an index signature constrains every property the
object has, a declared field requires a property of the right value kind to
be present, and extra properties are always allowed (width subtyping).
-/

namespace MaterialSchemes

/-- Modelled from the spec: the constant `COLOR_SCHEME_KEYS` lives in
`src/constants`, which is not part of the repository snapshot. Per the spec,
`ColorKey` is an "enumeration of recognized M3 role names", so we take the
canonical Material Design 3 color role names. -/
def COLOR_SCHEME_KEYS : List String :=
  ["primary", "onPrimary", "primaryContainer", "onPrimaryContainer",
   "inversePrimary", "secondary", "onSecondary", "secondaryContainer",
   "onSecondaryContainer", "tertiary", "onTertiary", "tertiaryContainer",
   "onTertiaryContainer", "error", "onError", "errorContainer",
   "onErrorContainer", "background", "onBackground", "surface", "onSurface",
   "surfaceVariant", "onSurfaceVariant", "inverseSurface", "inverseOnSurface",
   "outline", "outlineVariant", "shadow", "scrim", "surfaceTint"]

/-- Source `type Color = string | number`: a color value is a textual code
or a packed integer (the TS `number` is embedded as `Int`; no arithmetic is
performed on it in this layer). -/
inductive Color where
  | str (s : String)
  | num (n : Int)
deriving DecidableEq, Repr

/-- A runtime TypeScript object: an association list of properties. -/
abbrev Obj : Type := List (String × Color)

/-- First-match property lookup, mirroring object property access. -/
def lookupKey (k : String) : Obj → Option Color
  | [] => none
  | (j, v) :: rest => if j = k then some v else lookupKey k rest

/-- Whether a color value is a packed integer (TS `number`). -/
def isNum : Color → Bool
  | .str _ => false
  | .num _ => true

/-- Value kinds occurring in this layer's property types:
`string`, `number`, and `string | number`. -/
inductive FieldTy where
  | fStr
  | fNum
  | fStrOrNum
deriving DecidableEq, Repr

/-- Membership of a color value in a value kind. -/
def hasTy : Color → FieldTy → Bool
  | .str _, .fStr => true
  | .num _, .fNum => true
  | _, .fStrOrNum => true
  | _, _ => false

/-- A declared-field list of an object type: each field name with its
required value kind. -/
abbrev Fields := List (String × FieldTy)

/-- Conformance to a list of declared fields: each declared field must be
present with a value of the declared kind (extra properties allowed,
per structural width subtyping). -/
def conformsFields (fs : Fields) (o : Obj) : Bool :=
  fs.all fun f => ((lookupKey f.1 o).map (fun v => hasTy v f.2)).getD false

/-- Source `type ColorKey = (typeof COLOR_SCHEME_KEYS)[number]`: the union
of the string literal types listed in `COLOR_SCHEME_KEYS`. -/
def isColorKey (s : String) : Bool := COLOR_SCHEME_KEYS.contains s

/-- Source `interface ColorScheme extends Record<ColorKey | string, number>`.
In TypeScript the key type `ColorKey | string` absorbs to `string`, so the
interface is exactly the index signature requiring every present property to
be a `number`; no particular key is required. -/
def conformsColorScheme (o : Obj) : Bool :=
  o.all fun p => isNum p.2

/-- Source `type SuffixedColorScheme<Suffix> = { [K in ColorKey as
K-Suffix-appended]: number }`: the mapped type declares, for each canonical
key, exactly the suffixed field with value kind `number`. -/
def SuffixedColorScheme (suffix : String) : Fields :=
  COLOR_SCHEME_KEYS.map fun k => (k ++ suffix, FieldTy.fNum)

/-- Source `type LightColorScheme = SuffixedColorScheme<'Light'>`. -/
def LightColorScheme : Fields := SuffixedColorScheme "Light"

/-- Source `type DarkColorScheme = SuffixedColorScheme<'Dark'>`. -/
def DarkColorScheme : Fields := SuffixedColorScheme "Dark"

/-- Source `type ColorSchemeReturnType<V> = V extends true ? ColorScheme &
LightColorScheme & DarkColorScheme : ColorScheme`: intersection conformance
is the conjunction of the three conformance predicates. -/
def conformsCSRT (v : Bool) (o : Obj) : Bool :=
  match v with
  | true => conformsColorScheme o && conformsFields LightColorScheme o
      && conformsFields DarkColorScheme o
  | false => conformsColorScheme o

/-- Following the spec's words for the combined branch: the shape combining
`ColorScheme`, `LightColorScheme` and `DarkColorScheme`. -/
def combinedSchemeSpec (o : Obj) : Bool :=
  conformsColorScheme o && conformsFields LightColorScheme o
    && conformsFields DarkColorScheme o

/-- A base type `T` admissible for `CustomColorScheme<T>`: `T` must extend
`Record<string, string | number>`, so it is either an object type with
declared fields whose value kinds lie in `string | number`, or an index
signature over such a kind. -/
inductive TSTy where
  | record (fields : Fields)
  | index (ft : FieldTy)

/-- Conformance to a base type `T`. -/
def conformsTy : TSTy → Obj → Bool
  | .record fs, o => conformsFields fs o
  | .index ft, o => o.all fun p => hasTy p.2 ft

/-- The required (declared) fields of a base type: an index signature
requires no particular field. -/
def reqFields : TSTy → Fields
  | .record fs => fs
  | .index _ => []

/-- The default base type `T = Record<string, string | number>`. -/
def defaultT : TSTy := .index .fStrOrNum

/-- Source `type CustomColorScheme<T> = T & { [key: string]: number }`:
conformance to `T` together with the index signature forcing every present
property to be a `number`. -/
def conformsCustomColorScheme (t : TSTy) (o : Obj) : Bool :=
  conformsTy t o && o.all fun p => isNum p.2

/-- Source field type `paletteTones?: false | number[]`: the literal
`false` or an array of tones. -/
inductive PaletteTones where
  | off
  | tones (ts : List Int)
deriving DecidableEq, Repr

/-- Semantic reading of the source generic function type
`<T extends ColorSchemeReturnType<V>>(colorScheme: T) => T` of the
`modifyColorScheme` hook: for every object type refining the bound
(represented by its conformance predicate `P`), the function maps objects
satisfying `P` to objects satisfying `P`. -/
def SemType (V : Bool) (f : Obj → Obj) : Prop :=
  ∀ P : Obj → Bool, (∀ o, P o = true → conformsCSRT V o = true) →
    ∀ o, P o = true → P (f o) = true

/-- A value of the `modifyColorScheme` field: a function carrying its
declared generic type. -/
def SchemeModifier (V : Bool) : Type := { f : Obj → Obj // SemType V f }

/-- Source `interface ColorSchemeOptions<V extends boolean = false>`: all
fields optional; `brightnessVariants` has the literal type `V`. -/
structure ColorSchemeOptions (V : Bool) where
  dark : Option Bool
  brightnessVariants : Option { b : Bool // b = V }
  paletteTones : Option PaletteTones
  modifyColorScheme : Option (SchemeModifier V)

/-- Source `interface StaticColor { name: string; value: Color;
blend?: boolean }`. -/
structure StaticColor where
  name : String
  value : Color
  blend : Option Bool

/-- Modelled from the spec: `SchemeOptions` lives in `src/types/scheme.ts`,
which is not part of the repository snapshot. Per the spec it is the
scheme-generation option set carrying the dark-mode flag (`isDark`, the
field `ThemeOptions` omits) alongside the other generation options. -/
structure SchemeOptions where
  isDark : Option Bool
  brightnessVariants : Option Bool
  paletteTones : Option PaletteTones
  modifyColorScheme : Option (Obj → Obj)

/-- The source's `Omit<SchemeOptions, 'isDark'>`: every field of
`SchemeOptions` except `isDark`. -/
structure SchemeOptionsSansDark where
  brightnessVariants : Option Bool
  paletteTones : Option PaletteTones
  modifyColorScheme : Option (Obj → Obj)

/-- Source `type ThemeOptions = Omit<SchemeOptions, 'isDark'> &
{ staticColors?: StaticColor[] }`. -/
structure ThemeOptions extends SchemeOptionsSansDark where
  staticColors : Option (List StaticColor)

/-- Projection realizing `Omit<SchemeOptions, 'isDark'>`. -/
def dropDark (s : SchemeOptions) : SchemeOptionsSansDark :=
  ⟨s.brightnessVariants, s.paletteTones, s.modifyColorScheme⟩

/-- Reattaching a dark-mode flag to the omitted record. -/
def withDark (d : Option Bool) (r : SchemeOptionsSansDark) : SchemeOptions :=
  ⟨d, r.brightnessVariants, r.paletteTones, r.modifyColorScheme⟩

/-- Decomposing `ThemeOptions` into the omitted scheme options and the
optional static color list. -/
def themeOptionsToParts (t : ThemeOptions) :
    SchemeOptionsSansDark × Option (List StaticColor) :=
  (t.toSchemeOptionsSansDark, t.staticColors)

/-- Rebuilding `ThemeOptions` from its two parts. -/
def themeOptionsOfParts
    (p : SchemeOptionsSansDark × Option (List StaticColor)) : ThemeOptions :=
  ⟨p.1, p.2⟩

/-- Source `Theme.schemes`: exactly a light and a dark dynamic scheme. The
external library type `DynamicScheme` is a type parameter. -/
structure Schemes (DynamicScheme : Type) where
  light : DynamicScheme
  dark : DynamicScheme

/-- Source `Theme.palettes`: exactly the six named tonal palettes. The
external library type `TonalPalette` is a type parameter. -/
structure Palettes (TonalPalette : Type) where
  primary : TonalPalette
  secondary : TonalPalette
  tertiary : TonalPalette
  neutral : TonalPalette
  neutralVariant : TonalPalette
  error : TonalPalette

/-- Source `interface Theme` from `src/types/theme.ts`. `Variant` (from the
repository's core module, not in the snapshot) and the external library
types `DynamicScheme`, `TonalPalette`, `CustomColorGroup` are type
parameters. -/
structure Theme
    (Variant DynamicScheme TonalPalette CustomColorGroup : Type) where
  source : Int
  contrastLevel : Int
  variant : Variant
  schemes : Schemes DynamicScheme
  palettes : Palettes TonalPalette
  customColors : List CustomColorGroup

/-- Keys-present predicate used to instantiate the generic bound of the
`modifyColorScheme` hook at a concrete object's key set. -/
def keysPresent (ks : List String) (o : Obj) : Bool :=
  ks.all fun k => (lookupKey k o).isSome

/-- The object type refining the hook's bound: the return-type bound
together with the presence of a given key set. -/
def withKeys (V : Bool) (ks : List String) (o : Obj) : Bool :=
  conformsCSRT V o && keysPresent ks o

/-- The identity function as a `modifyColorScheme` value. -/
def idModifier (V : Bool) : SchemeModifier V :=
  ⟨fun o => o, fun _ _ _ h => h⟩

/-- Concrete options supplying the identity hook. -/
def idOptions (V : Bool) : ColorSchemeOptions V :=
  ⟨none, none, none, some (idModifier V)⟩

/-- Concrete options with an empty tone array. -/
def emptyTonesOptions : ColorSchemeOptions false :=
  ⟨none, none, some (PaletteTones.tones []), none⟩

/-- Concrete options with tonal palettes disabled. -/
def offOptions : ColorSchemeOptions false :=
  ⟨none, none, some PaletteTones.off, none⟩

/-- A concrete one-entry numeric scheme object. -/
def exScheme : Obj := [("primary", Color.num 1)]

/-- A concrete one-entry string-valued object. -/
def exStrObj : Obj := [("custom", Color.str "#ff0000")]

/-! ### Helper lemmas -/

/-- The canonical key list has no duplicates. -/
theorem color_scheme_keys_nodup : COLOR_SCHEME_KEYS.Nodup := by decide

/-- Looking a key up past a cons with a different stored key skips it. -/
theorem lookupKey_cons_ne (j k : String) (v : Color) (o : Obj) (h : j ≠ k) :
    lookupKey k ((j, v) :: o) = lookupKey k o := by
  simp [lookupKey, h]

/-- A successful lookup exhibits a member entry of the object. -/
theorem mem_of_lookupKey_eq_some (k : String) (v : Color) :
    ∀ o : Obj, lookupKey k o = some v → (k, v) ∈ o := by
  intro o
  induction o with
  | nil => intro h; exact absurd h (by simp [lookupKey])
  | cons p rest ih =>
    obtain ⟨j, w⟩ := p
    intro h
    by_cases hjk : j = k
    · subst hjk
      have hw : lookupKey j ((j, w) :: rest) = some w := by simp [lookupKey]
      rw [hw] at h
      cases h
      exact List.mem_cons_self _ _
    · rw [lookupKey_cons_ne j k w rest hjk] at h
      exact List.mem_cons_of_mem _ (ih h)

/-- Lookup succeeds exactly on the object's key set. -/
theorem lookupKey_isSome_iff (k : String) :
    ∀ o : Obj, (lookupKey k o).isSome = true ↔ k ∈ o.map Prod.fst := by
  intro o
  induction o with
  | nil => simp [lookupKey]
  | cons p rest ih =>
    obtain ⟨j, w⟩ := p
    by_cases hjk : j = k
    · subst hjk
      simp [lookupKey]
    · rw [lookupKey_cons_ne j k w rest hjk]
      rw [ih]
      simp only [List.map_cons, List.mem_cons]
      constructor
      · exact Or.inr
      · rintro (h | h)
        · exact absurd h.symm hjk
        · exact h

/-- Appending a fixed suffix is injective on strings. -/
theorem string_append_left_injective (sfx : String) :
    Function.Injective (fun s => s ++ sfx) := by
  intro a b h
  have hd : (a ++ sfx).data = (b ++ sfx).data := congrArg String.data h
  simp only [String.data_append] at hd
  exact String.ext (List.append_left_injective sfx.data hd)

/-- The key set of a suffixed scheme is the suffixed canonical key list. -/
theorem suffixedKeys_eq (sfx : String) :
    (SuffixedColorScheme sfx).map Prod.fst
      = COLOR_SCHEME_KEYS.map (fun k => k ++ sfx) := by
  simp [SuffixedColorScheme, List.map_map, Function.comp]

/-- A fresh key (not among the declared field names) inserted in front of an
object does not disturb conformance to those fields. -/
theorem conformsFields_insert_of_not_mem (fs : Fields) (j : String)
    (v : Color) (o : Obj) (hj : j ∉ fs.map Prod.fst)
    (h : conformsFields fs o = true) :
    conformsFields fs ((j, v) :: o) = true := by
  simp only [conformsFields, List.all_eq_true] at h ⊢
  intro f hf
  have hne : j ≠ f.1 := fun he => hj (he ▸ List.mem_map_of_mem Prod.fst hf)
  rw [lookupKey_cons_ne j f.1 v o hne]
  exact h f hf

/-- Conformance to a base type yields conformance to its required fields. -/
theorem conformsFields_reqFields_of_conformsTy (t : TSTy) (o : Obj)
    (h : conformsTy t o = true) :
    conformsFields (reqFields t) o = true := by
  cases t with
  | record fs => exact h
  | index ft => simp [reqFields, conformsFields]

/-! ### Claims -/

/-- Claim C1: for the flag value `true`, `ColorSchemeReturnType` is
structurally the combination (intersection) of `ColorScheme`,
`LightColorScheme` and `DarkColorScheme`, and for `false` it is
`ColorScheme` alone. -/
theorem colorSchemeReturnType_branches :
    ∀ o : Obj,
      conformsCSRT true o = combinedSchemeSpec o ∧
      conformsCSRT false o = conformsColorScheme o :=
  fun _ => ⟨rfl, rfl⟩

/-- Claim C2 (code bug): the key type `ColorKey | string` of
`Record<ColorKey | string, number>` absorbs to `string`, so `ColorScheme`
is a bare numeric index signature: the empty object conforms although it
defines no entry at the canonical key `primary` (or any other role),
contradicting the interface's own description as a complete scheme. -/
theorem colorScheme_requires_no_keys :
    conformsColorScheme ([] : Obj) = true ∧
    "primary" ∈ COLOR_SCHEME_KEYS ∧
    lookupKey "primary" ([] : Obj) = none :=
  ⟨rfl, by decide, rfl⟩

/-- Claim C3 counterexample: `ColorKey` is the union of the literal types
listed in `COLOR_SCHEME_KEYS` and nothing else, so the arbitrary string
`notARole` is not a valid `ColorKey` value, refuting the claim that every
string is one. -/
theorem colorKey_rejects_arbitrary_string :
    isColorKey "notARole" = false := by decide

/-- Claim C3 (amended): `ColorKey` is exactly the canonical enumeration:
every element of `COLOR_SCHEME_KEYS` is a valid `ColorKey` value, and every
valid `ColorKey` value is an element of `COLOR_SCHEME_KEYS`; arbitrary
strings are admitted only at use sites via the separate union
`ColorKey | string`. -/
theorem colorKey_is_exactly_enumeration :
    (∀ k, k ∈ COLOR_SCHEME_KEYS → isColorKey k = true) ∧
    (∀ s, isColorKey s = true → s ∈ COLOR_SCHEME_KEYS) := by
  constructor
  · intro k hk
    exact List.elem_eq_true_of_mem hk
  · intro s hs
    exact List.mem_of_elem_eq_true hs

/-- Claim C3 witness: the amended characterization applied at the concrete
canonical key `primary`. -/
theorem colorKey_is_exactly_enumeration_witness :
    "primary" ∈ COLOR_SCHEME_KEYS ∧ isColorKey "primary" = true :=
  ⟨by decide, colorKey_is_exactly_enumeration.1 "primary" (by decide)⟩

/-- Claim C4: each suffixed scheme type declares, for every canonical key
`k`, exactly one field named `k` followed by the suffix, with a numeric
value, and declares no field of any other form. -/
theorem suffixed_schemes_one_key_per_base :
    ∀ k, k ∈ COLOR_SCHEME_KEYS →
      ((LightColorScheme.map Prod.fst).count (k ++ "Light") = 1 ∧
       (DarkColorScheme.map Prod.fst).count (k ++ "Dark") = 1) ∧
      (∀ f, f ∈ LightColorScheme →
        f.2 = FieldTy.fNum ∧ ∃ k0 ∈ COLOR_SCHEME_KEYS, f.1 = k0 ++ "Light") ∧
      (∀ f, f ∈ DarkColorScheme →
        f.2 = FieldTy.fNum ∧ ∃ k0 ∈ COLOR_SCHEME_KEYS, f.1 = k0 ++ "Dark") := by
  intro k hk
  refine ⟨⟨?_, ?_⟩, ?_, ?_⟩
  · rw [LightColorScheme, suffixedKeys_eq]
    have h1 := List.count_map_of_injective COLOR_SCHEME_KEYS
      (fun s => s ++ "Light") (string_append_left_injective "Light") k
    exact h1.trans (List.count_eq_one_of_mem color_scheme_keys_nodup hk)
  · rw [DarkColorScheme, suffixedKeys_eq]
    have h1 := List.count_map_of_injective COLOR_SCHEME_KEYS
      (fun s => s ++ "Dark") (string_append_left_injective "Dark") k
    exact h1.trans (List.count_eq_one_of_mem color_scheme_keys_nodup hk)
  · intro f hf
    simp only [LightColorScheme, SuffixedColorScheme, List.mem_map] at hf
    obtain ⟨k0, hk0, rfl⟩ := hf
    exact ⟨rfl, k0, hk0, rfl⟩
  · intro f hf
    simp only [DarkColorScheme, SuffixedColorScheme, List.mem_map] at hf
    obtain ⟨k0, hk0, rfl⟩ := hf
    exact ⟨rfl, k0, hk0, rfl⟩

/-- Claim C4 witness: uniqueness of the suffixed keys at the concrete
canonical key `primary`. -/
theorem suffixed_schemes_one_key_per_base_witness :
    "primary" ∈ COLOR_SCHEME_KEYS ∧
    (LightColorScheme.map Prod.fst).count ("primary" ++ "Light") = 1 ∧
    (DarkColorScheme.map Prod.fst).count ("primary" ++ "Dark") = 1 :=
  ⟨by decide,
   (suffixed_schemes_one_key_per_base "primary" (by decide)).1.1,
   (suffixed_schemes_one_key_per_base "primary" (by decide)).1.2⟩

/-- Claim C5: a value of `CustomColorScheme<T>` satisfies all of `T`'s
constraints, and inserting an additional integer entry at any string key
outside `T`'s declared fields leaves `T`'s required fields satisfied. -/
theorem customColorScheme_extends_base :
    ∀ (t : TSTy) (o : Obj), conformsCustomColorScheme t o = true →
      conformsTy t o = true ∧
      ∀ (j : String) (n : Int), j ∉ (reqFields t).map Prod.fst →
        conformsFields (reqFields t) ((j, Color.num n) :: o) = true := by
  intro t o h
  simp only [conformsCustomColorScheme, Bool.and_eq_true] at h
  refine ⟨h.1, fun j n hj => ?_⟩
  exact conformsFields_insert_of_not_mem (reqFields t) j (Color.num n) o hj
    (conformsFields_reqFields_of_conformsTy t o h.1)

/-- Claim C5 witness: the default base type with a concrete one-entry
scheme, extended at the fresh key `custom`. -/
theorem customColorScheme_extends_base_witness :
    conformsCustomColorScheme defaultT exScheme = true ∧
    conformsTy defaultT exScheme = true ∧
    ("custom" : String) ∉ (reqFields defaultT).map Prod.fst ∧
    conformsFields (reqFields defaultT)
      (("custom", Color.num 2) :: exScheme) = true :=
  ⟨rfl, (customColorScheme_extends_base defaultT exScheme rfl).1, by decide,
   (customColorScheme_extends_base defaultT exScheme rfl).2 "custom" 2
     (by decide)⟩

/-- Claim C6: a function of the declared type of the `modifyColorScheme`
option, applied to a scheme conforming to the return-type bound, returns a
scheme that still conforms and retains every key of its input (values may
change, keys may be added, none are removed). -/
theorem modifyColorScheme_preserves_shape :
    ∀ (V : Bool) (opts : ColorSchemeOptions V) (f : SchemeModifier V),
      opts.modifyColorScheme = some f →
      ∀ sch : Obj, conformsCSRT V sch = true →
        conformsCSRT V (f.1 sch) = true ∧
        ∀ k, k ∈ sch.map Prod.fst → k ∈ (f.1 sch).map Prod.fst := by
  intro V _ f _ sch hsch
  have hsub : ∀ o, withKeys V (sch.map Prod.fst) o = true →
      conformsCSRT V o = true := by
    intro o ho
    simp only [withKeys, Bool.and_eq_true] at ho
    exact ho.1
  have hPsch : withKeys V (sch.map Prod.fst) sch = true := by
    simp only [withKeys, keysPresent, Bool.and_eq_true, List.all_eq_true]
    exact ⟨hsch, fun k hk => (lookupKey_isSome_iff k sch).mpr hk⟩
  have hPf := f.2 (withKeys V (sch.map Prod.fst)) hsub sch hPsch
  simp only [withKeys, keysPresent, Bool.and_eq_true, List.all_eq_true] at hPf
  refine ⟨hPf.1, fun k hk => ?_⟩
  exact (lookupKey_isSome_iff k (f.1 sch)).mp (hPf.2 k hk)

/-- Claim C6 witness: the identity hook supplied through concrete options,
applied to a concrete conforming scheme, keeps its key `primary`. -/
theorem modifyColorScheme_preserves_shape_witness :
    (idOptions false).modifyColorScheme = some (idModifier false) ∧
    conformsCSRT false exScheme = true ∧
    conformsCSRT false ((idModifier false).1 exScheme) = true ∧
    "primary" ∈ ((idModifier false).1 exScheme).map Prod.fst :=
  ⟨rfl, rfl,
   (modifyColorScheme_preserves_shape false (idOptions false)
     (idModifier false) rfl exScheme rfl).1,
   (modifyColorScheme_preserves_shape false (idOptions false)
     (idModifier false) rfl exScheme rfl).2 "primary" (by decide)⟩

/-- Claim C7 counterexample: the field type `false | number[]` admits the
empty array, so a conforming options value may carry `paletteTones` equal
to an empty tone list, refuting the claim that a present `paletteTones` is
either `false` or non-empty. -/
theorem paletteTones_empty_array_allowed :
    emptyTonesOptions.paletteTones = some (PaletteTones.tones []) ∧
    ¬ (PaletteTones.tones ([] : List Int) = PaletteTones.off ∨
       ∃ ts, PaletteTones.tones ([] : List Int) = PaletteTones.tones ts ∧
         ts ≠ ([] : List Int)) := by
  refine ⟨rfl, ?_⟩
  intro h
  rcases h with h | ⟨ts, hts, hne⟩
  · exact PaletteTones.noConfusion h
  · cases hts
    exact hne rfl

/-- Claim C7 (amended): a present `paletteTones` value is either the
literal `false` (disabling tonal palettes) or an ordered list of tone
values, which may be empty. -/
theorem paletteTones_false_or_list :
    ∀ (V : Bool) (o : ColorSchemeOptions V) (pt : PaletteTones),
      o.paletteTones = some pt →
      pt = PaletteTones.off ∨ ∃ ts, pt = PaletteTones.tones ts := by
  intro V o pt _
  cases pt with
  | off => exact Or.inl rfl
  | tones ts => exact Or.inr ⟨ts, rfl⟩

/-- Claim C7 witness: the amended shape at concrete options disabling
tonal palettes. -/
theorem paletteTones_false_or_list_witness :
    offOptions.paletteTones = some PaletteTones.off ∧
    (PaletteTones.off = PaletteTones.off ∨
     ∃ ts, PaletteTones.off = PaletteTones.tones ts) :=
  ⟨rfl, paletteTones_false_or_list false offOptions PaletteTones.off rfl⟩

/-- Claim C8: `ThemeOptions` is exactly the scheme options with the
dark-mode flag removed plus an optional static-color list: decomposing a
`ThemeOptions` value into those two parts and rebuilding is the identity in
both directions, and removing/reattaching the dark-mode flag of
`SchemeOptions` is also the identity in both directions. -/
theorem themeOptions_is_schemeOptions_sans_dark :
    (∀ t : ThemeOptions, themeOptionsOfParts (themeOptionsToParts t) = t) ∧
    (∀ p : SchemeOptionsSansDark × Option (List StaticColor),
      themeOptionsToParts (themeOptionsOfParts p) = p) ∧
    (∀ s : SchemeOptions, withDark s.isDark (dropDark s) = s) ∧
    (∀ (d : Option Bool) (r : SchemeOptionsSansDark),
      dropDark (withDark d r) = r ∧ (withDark d r).isDark = d) :=
  ⟨fun _ => rfl, fun _ => rfl, fun _ => rfl, fun _ _ => ⟨rfl, rfl⟩⟩

/-- Claim C9: a `Theme` value consists of exactly a numeric source color, a
numeric contrast level, a variant, a schemes pair of exactly a light and a
dark dynamic scheme, a palettes record of exactly the six named tonal
palettes, and a list of custom color groups: every theme is rebuilt from
precisely these components. -/
theorem theme_components_exactly :
    ∀ (Variant DynamicScheme TonalPalette CustomColorGroup : Type)
      (t : Theme Variant DynamicScheme TonalPalette CustomColorGroup),
      t = ⟨t.source, t.contrastLevel, t.variant,
           ⟨t.schemes.light, t.schemes.dark⟩,
           ⟨t.palettes.primary, t.palettes.secondary, t.palettes.tertiary,
            t.palettes.neutral, t.palettes.neutralVariant, t.palettes.error⟩,
           t.customColors⟩ := by
  intro _ _ _ _ t
  obtain ⟨s, c, v, ⟨l, d⟩, ⟨p1, p2, p3, p4, p5, p6⟩, cc⟩ := t
  rfl

/-- Claim C10: with the default base type `Record<string, string | number>`,
the intersection with the numeric index signature forces every entry to be
a number: an object with a string-valued entry never inhabits
`CustomColorScheme`, although the default base type alone accepts it. -/
theorem default_customColorScheme_forces_numbers :
    (∀ (o : Obj) (k s : String), lookupKey k o = some (Color.str s) →
       conformsCustomColorScheme defaultT o = false) ∧
    conformsTy defaultT exStrObj = true := by
  refine ⟨?_, rfl⟩
  intro o k s hlk
  have hmem := mem_of_lookupKey_eq_some k (Color.str s) o hlk
  apply Bool.eq_false_iff.mpr
  intro hcc
  simp only [conformsCustomColorScheme, Bool.and_eq_true,
    List.all_eq_true] at hcc
  have hnum := hcc.2 (k, Color.str s) hmem
  simp [isNum] at hnum

/-- Claim C10 witness: the concrete string-valued object is rejected by the
default `CustomColorScheme` although it satisfies the default base type. -/
theorem default_customColorScheme_forces_numbers_witness :
    lookupKey "custom" exStrObj = some (Color.str "#ff0000") ∧
    conformsCustomColorScheme defaultT exStrObj = false :=
  ⟨rfl, default_customColorScheme_forces_numbers.1 exStrObj "custom"
    "#ff0000" rfl⟩

end MaterialSchemes
